import Mathlib

/-!
Verification of the Product Browser component (src/src/App.tsx).

The component holds four pieces of state:
  * `products : Product[]`, fetched once on mount;
  * `searchKey : string`, updated on every keystroke;
  * `debouncedSearchKey : string`, updated 300ms after `searchKey` stops changing;
  * `imageLoading : { [id]: boolean | "error" }`, updated by image load/error events.

We embed each state-manipulating function of the source as a Lean definition
and prove the specified properties about them.
-/

namespace ProductListApp

/-- The product entity, with the field names used by the source
(`productId`, `productName`, `productPrice`, `productImage`). -/
structure Product where
  productId : String
  productName : String
  productPrice : Int
  productImage : String
deriving DecidableEq

/-! ### The search filter (App.tsx lines 64-66)

`products.filter(p => p.productName.toLowerCase().includes(debouncedSearchKey.toLowerCase()))`

JavaScript `String.prototype.includes` tests substring containment; we embed it
on the character lists of the strings. -/

/-- Predicate `startsWithChars pat text` is true when `text` begins with `pat`
(character-by-character comparison). -/
def startsWithChars : List Char → List Char → Bool
  | [], _ => true
  | _ :: _, [] => false
  | p :: ps, c :: cs => p == c && startsWithChars ps cs

/-- Predicate `hasSubChars pat text` is true when `pat` occurs contiguously inside `text`:
the embedding of JavaScript `text.includes(pat)` on character lists. -/
def hasSubChars (pat : List Char) : List Char → Bool
  | [] => pat.isEmpty
  | c :: cs => startsWithChars pat (c :: cs) || hasSubChars pat cs

/-- Embedding of JavaScript `s.toLowerCase()` on the character list of the
string: each character lowercased. -/
def lowerChars (s : String) : List Char := s.data.map Char.toLower

/-- The `filteredProducts` memo of App.tsx (lines 64-66): keep the products
whose lowercased name contains the lowercased debounced query
(`product.productName.toLowerCase().includes(debouncedSearchKey.toLowerCase())`). -/
def filteredProducts (products : List Product) (debouncedSearchKey : String) : List Product :=
  products.filter (fun product =>
    hasSubChars (lowerChars debouncedSearchKey) (lowerChars product.productName))

/-- Spec-side reading of "the name, lowercased, contains the lowercased query
as a substring": there is a decomposition `text = l ++ pat ++ r`. -/
def containsSub (text pat : List Char) : Prop := ∃ l r, text = l ++ pat ++ r

theorem startsWithChars_iff (p t : List Char) :
    startsWithChars p t = true ↔ ∃ r, t = p ++ r := by
  induction p generalizing t with
  | nil => simp [startsWithChars]
  | cons a ps ih =>
    cases t with
    | nil => simp [startsWithChars]
    | cons c cs =>
      simp only [startsWithChars, Bool.and_eq_true, beq_iff_eq, ih]
      constructor
      · rintro ⟨rfl, r, rfl⟩
        exact ⟨r, rfl⟩
      · rintro ⟨r, h⟩
        cases h
        exact ⟨rfl, r, rfl⟩

theorem hasSubChars_iff (p t : List Char) :
    hasSubChars p t = true ↔ containsSub t p := by
  induction t with
  | nil =>
    simp only [hasSubChars, List.isEmpty_iff, containsSub]
    constructor
    · rintro rfl
      exact ⟨[], [], rfl⟩
    · rintro ⟨l, r, h⟩
      rcases List.append_eq_nil.mp h.symm with ⟨h1, h2⟩
      exact (List.append_eq_nil.mp h1).2
  | cons c cs ih =>
    simp only [hasSubChars, Bool.or_eq_true, startsWithChars_iff, ih, containsSub]
    constructor
    · rintro (⟨r, h⟩ | ⟨l, r, h⟩)
      · exact ⟨[], r, by simp [h]⟩
      · exact ⟨c :: l, r, by simp [h]⟩
    · rintro ⟨l, r, h⟩
      cases l with
      | nil => exact Or.inl ⟨r, by simpa using h⟩
      | cons x xs =>
        rw [List.cons_append, List.cons_append, List.cons.injEq] at h
        exact Or.inr ⟨xs, r, h.2⟩

instance (t p : List Char) : Decidable (containsSub t p) :=
  decidable_of_iff (hasSubChars p t = true) (hasSubChars_iff p t)

/-- The filtered list the spec describes: the subsequence of the products whose
lowercased name contains the lowercased query as a substring. -/
def specFilteredProducts (products : List Product) (query : String) : List Product :=
  products.filter (fun product =>
    decide (containsSub (lowerChars product.productName) (lowerChars query)))

/-! ### The image status map (App.tsx lines 12-14, 20, 50-62, 78-96)

`type ImageLoadingState = { [key: string]: boolean | "error" }` — note the value
type admits `true` even though the handlers only ever store `false` or `"error"`.
A JavaScript object keyed by strings is embedded as `String → Option ImgVal`;
the object spread `{ ...prevState, [productId]: v }` is a pointwise update. -/

/-- A value stored in the `imageLoading` object: a boolean or the string
literal `"error"`. -/
inductive ImgVal where
  | bool (b : Bool)
  | strError
deriving DecidableEq

/-- The `imageLoading` object: product id to stored value, absent keys
mapped to `none` (JavaScript `undefined`). -/
def ImageLoadingState := String → Option ImgVal

/-- Embedding of `useState<ImageLoadingState>` starting from the empty object. -/
def initialImageLoading : ImageLoadingState := fun _ => none

/-- Handler `handleImageLoad` (App.tsx lines 50-55): spread the previous object and set
`[productId]: false`. -/
def handleImageLoad (productId : String) (prevState : ImageLoadingState) :
    ImageLoadingState :=
  fun k => if k = productId then some (ImgVal.bool false) else prevState k

/-- Handler `handleImageError` (App.tsx lines 57-62): spread the previous object and
set `[productId]: "error"`. -/
def handleImageError (productId : String) (prevState : ImageLoadingState) :
    ImageLoadingState :=
  fun k => if k = productId then some ImgVal.strError else prevState k

/-- An image load/error event for a given product id (the `onLoad`/`onError`
callbacks of the `img` element). -/
inductive ImgEvent where
  | load (productId : String)
  | fail (productId : String)
deriving DecidableEq

/-- Dispatch one image event to its handler. -/
def applyImgEvent (e : ImgEvent) (m : ImageLoadingState) : ImageLoadingState :=
  match e with
  | ImgEvent.load productId => handleImageLoad productId m
  | ImgEvent.fail productId => handleImageError productId m

/-- Apply a sequence of image events in order. -/
def runImgEvents (es : List ImgEvent) (m : ImageLoadingState) : ImageLoadingState :=
  es.foldl (fun m e => applyImgEvent e m) m

/-! Rendering of the image container (App.tsx lines 78-96). -/

/-- The placeholder `div` is rendered exactly when
`imageLoading[prod.productId] !== false` (line 78). -/
def showsPlaceholder (m : ImageLoadingState) (productId : String) : Bool :=
  !(decide (m productId = some (ImgVal.bool false)))

/-- Inside the placeholder, the text "Image not available" is rendered exactly
when `imageLoading[prod.productId] === "error"` (line 80), the spinner
otherwise. -/
def showsErrorText (m : ImageLoadingState) (productId : String) : Bool :=
  decide (m productId = some ImgVal.strError)

/-- The `img` element is visible (class `loaded`, no `display: none`) exactly
when `imageLoading[prod.productId] === false` (lines 94-95). -/
def showsImage (m : ImageLoadingState) (productId : String) : Bool :=
  decide (m productId = some (ImgVal.bool false))

/-- The pending render: placeholder with the spinner, image hidden. -/
def pendingRender (m : ImageLoadingState) (productId : String) : Bool :=
  showsPlaceholder m productId && !showsErrorText m productId

/-- The error render: placeholder with the "Image not available" text, image
hidden. -/
def errorRender (m : ImageLoadingState) (productId : String) : Bool :=
  showsPlaceholder m productId && showsErrorText m productId

/-- The loaded render: placeholder gone, image visible. -/
def loadedRender (m : ImageLoadingState) (productId : String) : Bool :=
  showsImage m productId

/-- The per-id status of the spec's Image Status Tracker: absent entry (and the
never-stored `true`) is `pending`, stored `false` is `loaded`, stored
`"error"` is `error`. -/
inductive Status where
  | pending
  | loaded
  | error
deriving DecidableEq

/-- Read a product id's status off the `imageLoading` object, matching the
rendering conditions of App.tsx lines 78-96. -/
def statusOf (m : ImageLoadingState) (productId : String) : Status :=
  match m productId with
  | some (ImgVal.bool false) => Status.loaded
  | some ImgVal.strError => Status.error
  | _ => Status.pending

/-- The transition rule claimed for the status: it stays put, or moves
pending→loaded or pending→error. -/
def claimedTransition (a b : Status) : Prop :=
  a = b ∨ (a = Status.pending ∧ b = Status.loaded) ∨
    (a = Status.pending ∧ b = Status.error)

instance (a b : Status) : Decidable (claimedTransition a b) := by
  unfold claimedTransition
  infer_instance

/-! ### The search debounce (App.tsx lines 17-19, 38-44, 46-48)

The effect `useEffect(() => { const handler = setTimeout(() => {
setDebouncedSearchKey(searchKey) }, 300); return () => clearTimeout(handler) },
[searchKey])` re-runs on every `searchKey` change: the cleanup cancels the
previous timer and a new one is scheduled 300ms ahead, capturing the current
`searchKey`. We embed the component as a state with a single optional pending
timer (deadline, captured value) and a counter of `setDebouncedSearchKey`
calls. -/

/-- Debounce-relevant component state: the raw query (`searchKey`), the
debounced query (`debouncedSearchKey`), the pending timer as
(absolute deadline, captured value), and how many times
`setDebouncedSearchKey` has fired. -/
structure DebounceState where
  raw : String
  debounced : String
  timer : Option (Nat × String)
  emissions : Nat
deriving DecidableEq

/-- Fire the pending timer if its deadline has been reached by time `t`:
`setDebouncedSearchKey` runs with the captured value and the timer is spent. -/
def fireIfDue (t : Nat) (s : DebounceState) : DebounceState :=
  match s.timer with
  | some (d, v) =>
      if d ≤ t then
        { s with debounced := v, timer := none, emissions := s.emissions + 1 }
      else s
  | none => s

/-- A keystroke at time `t` typing raw value `q`: any timer due by `t` has
already fired; `setSearchKey(q)` runs, the effect cleanup cancels the old
timer (`clearTimeout`), and a new timer is scheduled for `t + 300` capturing
`q`. -/
def keystroke (t : Nat) (q : String) (s : DebounceState) : DebounceState :=
  let s1 := fireIfDue t s
  { s1 with raw := q, timer := some (t + 300, q) }

/-- Component teardown: the effect cleanup runs `clearTimeout` on the pending
timer. -/
def teardown (s : DebounceState) : DebounceState :=
  { s with timer := none }

/-- An externally visible event of the debounce machine: a keystroke, or mere
passage of time up to `t` (letting a due timer fire). -/
inductive DEvent where
  | key (t : Nat) (q : String)
  | tick (t : Nat)
deriving DecidableEq

/-- Step the debounce machine by one event. -/
def dstep (e : DEvent) (s : DebounceState) : DebounceState :=
  match e with
  | DEvent.key t q => keystroke t q s
  | DEvent.tick t => fireIfDue t s

/-- Run a sequence of debounce events in order. -/
def drun (es : List DEvent) (s : DebounceState) : DebounceState :=
  es.foldl (fun s e => dstep e s) s

/-- The mount state: `searchKey = ""`, `debouncedSearchKey = searchKey`, and
the effect has run once at mount time 0, scheduling a timer for 300 capturing
`""`. -/
def initialDebounce : DebounceState :=
  { raw := "", debounced := "", timer := some (300, ""), emissions := 0 }

/-- The raw values typed in a sequence of events, in order. -/
def typedValues (es : List DEvent) : List String :=
  es.filterMap (fun e =>
    match e with
    | DEvent.key _ q => some q
    | DEvent.tick _ => none)

/-- Gaps between consecutive keystrokes are all under 300ms. -/
def gapsUnder300 : List (Nat × String) → Bool
  | a :: b :: rest => decide (b.1 < a.1 + 300) && gapsUnder300 (b :: rest)
  | _ => true

/-- Run a list of keystrokes (time, raw value) in order. -/
def runKeys (evs : List (Nat × String)) (s : DebounceState) : DebounceState :=
  evs.foldl (fun s e => keystroke e.1 e.2 s) s

/-! ### The product fetch (App.tsx lines 22-36)

`fetchProducts` awaits the response; if `!response.ok` it throws; otherwise it
parses the body and calls `setProducts(jsonData.products)`. Any throw (the
synthetic one or a network failure) is caught and logged with
`console.error`. -/

/-- An HTTP response: status code and the parsed `jsonData.products` body. -/
structure HttpResponse where
  status : Nat
  bodyProducts : List Product
deriving DecidableEq

/-- Embedding of `response.ok`: the status is in the 2xx range (200-299). -/
def responseOk (r : HttpResponse) : Bool :=
  decide (200 ≤ r.status) && decide (r.status ≤ 299)

/-- The outcome of the `fetch` call: a response, or a thrown network error. -/
inductive FetchOutcome where
  | response (r : HttpResponse)
  | thrown
deriving DecidableEq

/-- The component state the fetch effect touches: the product list and a count
of `console.error` calls. -/
structure FetchState where
  products : List Product
  loggedErrors : Nat
deriving DecidableEq

/-- Initial fetch state: an empty product list and no errors logged yet. -/
def initialFetchState : FetchState :=
  { products := [], loggedErrors := 0 }

/-- Effect `fetchProducts` run once against a given outcome: on an ok response
`setProducts` stores the body; on a non-2xx response or a thrown error the
`catch` block logs and changes nothing else. -/
def runFetch (o : FetchOutcome) (s : FetchState) : FetchState :=
  match o with
  | FetchOutcome.response r =>
      if responseOk r then { s with products := r.bodyProducts }
      else { s with loggedErrors := s.loggedErrors + 1 }
  | FetchOutcome.thrown => { s with loggedErrors := s.loggedErrors + 1 }

/-! Concrete sample data (used to instantiate the theorems). -/

/-- A sample debounce state with a pending timer due at 400 capturing "c". -/
def sampleDebounceState : DebounceState := ⟨"a", "b", some (400, "c"), 0⟩

/-- A sample product. -/
def redShoe : Product := ⟨"1", "Red Shoe", 10, "a"⟩

/-- Another sample product. -/
def blueHat : Product := ⟨"2", "Blue Hat", 5, "b"⟩

/-- A failing (HTTP 500) fetch outcome whose body nevertheless carries a
product. -/
def failedResponse : FetchOutcome := FetchOutcome.response ⟨500, [redShoe]⟩

/-- A fetch state already holding one product. -/
def sampleFetchState : FetchState := ⟨[blueHat], 0⟩

/-! ## Helper lemmas -/

theorem hasSubChars_nil_pat (t : List Char) : hasSubChars [] t = true := by
  cases t <;> simp [hasSubChars, startsWithChars]

theorem hasSubChars_eq_decide (p t : List Char) :
    hasSubChars p t = decide (containsSub t p) := by
  rw [Bool.eq_iff_iff, hasSubChars_iff, decide_eq_true_eq]

theorem statusOf_handleImageLoad (productId k : String) (m : ImageLoadingState) :
    statusOf (handleImageLoad productId m) k =
      if k = productId then Status.loaded else statusOf m k := by
  unfold statusOf handleImageLoad
  by_cases h : k = productId <;> simp [h]

theorem statusOf_handleImageError (productId k : String) (m : ImageLoadingState) :
    statusOf (handleImageError productId m) k =
      if k = productId then Status.error else statusOf m k := by
  unfold statusOf handleImageError
  by_cases h : k = productId <;> simp [h]

theorem applyImgEvent_statusOf (e : ImgEvent) (m : ImageLoadingState) (k : String) :
    statusOf (applyImgEvent e m) k = statusOf m k ∨
      statusOf (applyImgEvent e m) k = Status.loaded ∨
      statusOf (applyImgEvent e m) k = Status.error := by
  cases e with
  | load productId =>
      rw [applyImgEvent, statusOf_handleImageLoad]
      by_cases h : k = productId <;> simp [h]
  | fail productId =>
      rw [applyImgEvent, statusOf_handleImageError]
      by_cases h : k = productId <;> simp [h]

theorem runImgEvents_ne_pending (es : List ImgEvent) :
    ∀ (m : ImageLoadingState) (k : String), statusOf m k ≠ Status.pending →
      statusOf (runImgEvents es m) k ≠ Status.pending := by
  induction es with
  | nil => intro m k h; exact h
  | cons e es ih =>
      intro m k h
      refine ih (applyImgEvent e m) k ?_
      rcases applyImgEvent_statusOf e m k with h1 | h1 | h1 <;> rw [h1] <;> simp_all

theorem count_true_renders (m : ImageLoadingState) (k : String) :
    [pendingRender m k, errorRender m k, loadedRender m k].count true = 1 := by
  rcases h : m k with _ | v
  · simp [pendingRender, errorRender, loadedRender, showsPlaceholder, showsErrorText,
      showsImage, h, List.count]
  · cases v with
    | bool b =>
        cases b <;>
          simp [pendingRender, errorRender, loadedRender, showsPlaceholder, showsErrorText,
            showsImage, h, List.count]
    | strError =>
        simp [pendingRender, errorRender, loadedRender, showsPlaceholder, showsErrorText,
          showsImage, h, List.count]

theorem applyImgEvent_isSome (e : ImgEvent) (m : ImageLoadingState) (k : String)
    (h : (m k).isSome = true) : (applyImgEvent e m k).isSome = true := by
  cases e with
  | load productId =>
      rw [applyImgEvent, handleImageLoad]
      by_cases hk : k = productId <;> simp [hk, h]
  | fail productId =>
      rw [applyImgEvent, handleImageError]
      by_cases hk : k = productId <;> simp [hk, h]

theorem runImgEvents_isSome (es : List ImgEvent) :
    ∀ (m : ImageLoadingState) (k : String), (m k).isSome = true →
      (runImgEvents es m k).isSome = true := by
  induction es with
  | nil => intro m k h; exact h
  | cons e es ih => intro m k h; exact ih (applyImgEvent e m) k (applyImgEvent_isSome e m k h)

/-! ## C1 — the product filter -/

/-- C1: for every product list and every debounced query, the filtered list is
exactly the subsequence of the products whose lowercased name contains the
lowercased query as a substring: it equals the spec-side filter, it is a
subsequence of the input (original order preserved), membership is exactly the
substring condition, and the empty query keeps every product. -/
theorem c1_filteredProducts_spec (products : List Product) (query : String) :
    filteredProducts products query = specFilteredProducts products query ∧
    List.Sublist (filteredProducts products query) products ∧
    (∀ p, p ∈ filteredProducts products query ↔
      p ∈ products ∧ containsSub (lowerChars p.productName) (lowerChars query)) ∧
    filteredProducts products "" = products := by
  refine ⟨?_, ?_, ?_, ?_⟩
  · exact List.filter_congr (fun p _ => hasSubChars_eq_decide _ _)
  · exact List.filter_sublist products
  · intro p
    rw [filteredProducts, List.mem_filter, hasSubChars_iff]
  · rw [filteredProducts]
    have h : lowerChars "" = [] := rfl
    simp [h, hasSubChars_nil_pat]

/-! ## C3 — status transitions and the render partition -/

/-- C3 as stated is false: the handlers also allow a loaded→error transition
(last writer wins, exactly as C4 and §4.3 of the spec describe). Concretely,
after a load signal for "p1" the status is `loaded`; a subsequent error signal
moves it to `error`, which is neither pending→loaded nor pending→error. -/
theorem c3_counterexample :
    statusOf (handleImageLoad "p1" initialImageLoading) "p1" = Status.loaded ∧
    statusOf (applyImgEvent (ImgEvent.fail "p1")
        (handleImageLoad "p1" initialImageLoading)) "p1" = Status.error ∧
    ¬ claimedTransition
        (statusOf (handleImageLoad "p1" initialImageLoading) "p1")
        (statusOf (applyImgEvent (ImgEvent.fail "p1")
          (handleImageLoad "p1" initialImageLoading)) "p1") := by
  refine ⟨by decide, by decide, by decide⟩

/-- C3 amended: every step either keeps the status or moves it to `loaded` or
to `error` (so from `pending` only pending→loaded / pending→error, and a later
signal may also flip loaded↔error, last writer wins); the status never returns
to `pending` under any further sequence of events; and at every moment exactly
one of the pending-, error- and loaded-renders is shown. -/
theorem c3_amended_transitions (m : ImageLoadingState) (e : ImgEvent)
    (es : List ImgEvent) (productId : String) :
    (statusOf (applyImgEvent e m) productId = statusOf m productId ∨
      statusOf (applyImgEvent e m) productId = Status.loaded ∨
      statusOf (applyImgEvent e m) productId = Status.error) ∧
    (statusOf m productId ≠ Status.pending →
      statusOf (runImgEvents es m) productId ≠ Status.pending) ∧
    [pendingRender m productId, errorRender m productId,
      loadedRender m productId].count true = 1 := by
  exact ⟨applyImgEvent_statusOf e m productId,
    runImgEvents_ne_pending es m productId,
    count_true_renders m productId⟩

/-- Witness for the amended C3 at concrete inputs: a loaded entry for "p",
hit by an error signal and a later unrelated load event. -/
theorem c3_amended_witness :
    (statusOf (applyImgEvent (ImgEvent.fail "p")
        (handleImageLoad "p" initialImageLoading)) "p" =
        statusOf (handleImageLoad "p" initialImageLoading) "p" ∨
      statusOf (applyImgEvent (ImgEvent.fail "p")
        (handleImageLoad "p" initialImageLoading)) "p" = Status.loaded ∨
      statusOf (applyImgEvent (ImgEvent.fail "p")
        (handleImageLoad "p" initialImageLoading)) "p" = Status.error) ∧
    statusOf (runImgEvents [ImgEvent.load "q"]
      (handleImageLoad "p" initialImageLoading)) "p" ≠ Status.pending ∧
    [pendingRender (handleImageLoad "p" initialImageLoading) "p",
      errorRender (handleImageLoad "p" initialImageLoading) "p",
      loadedRender (handleImageLoad "p" initialImageLoading) "p"].count true = 1 := by
  have h := c3_amended_transitions (handleImageLoad "p" initialImageLoading)
    (ImgEvent.fail "p") [ImgEvent.load "q"] "p"
  exact ⟨h.1, h.2.1 (by decide), h.2.2⟩

/-! ## C4 — load/error signals and last writer wins -/

/-- C4: a load signal for id X sets status[X] to loaded and an error signal
sets it to error, whatever was stored before; when both arrive the later one
determines the final status, so an error after a load overwrites to error and
a load after an error overwrites to loaded. -/
theorem c4_last_writer_wins (m : ImageLoadingState) (productId : String) :
    statusOf (handleImageLoad productId m) productId = Status.loaded ∧
    statusOf (handleImageError productId m) productId = Status.error ∧
    statusOf (handleImageError productId
      (handleImageLoad productId m)) productId = Status.error ∧
    statusOf (handleImageLoad productId
      (handleImageError productId m)) productId = Status.loaded := by
  simp [statusOf_handleImageLoad, statusOf_handleImageError]

/-! ## C5 — the rendered card is a function of the status -/

/-- C5: an absent map entry reads as pending; status pending shows the spinner
placeholder and hides the image; status error shows the "Image not available"
placeholder text and hides the image; status loaded removes the placeholder and
shows the image. -/
theorem c5_render_from_status (m : ImageLoadingState) (productId : String) :
    (m productId = none → statusOf m productId = Status.pending) ∧
    (statusOf m productId = Status.pending →
      pendingRender m productId = true ∧ errorRender m productId = false ∧
        showsImage m productId = false) ∧
    (statusOf m productId = Status.error →
      errorRender m productId = true ∧ showsErrorText m productId = true ∧
        showsImage m productId = false) ∧
    (statusOf m productId = Status.loaded →
      showsPlaceholder m productId = false ∧ showsImage m productId = true) := by
  rcases h : m productId with _ | v
  · simp [statusOf, pendingRender, errorRender, showsPlaceholder, showsErrorText,
      showsImage, h]
  · cases v with
    | bool b =>
        cases b <;>
          simp [statusOf, pendingRender, errorRender, showsPlaceholder, showsErrorText,
            showsImage, h]
    | strError =>
        simp [statusOf, pendingRender, errorRender, showsPlaceholder, showsErrorText,
          showsImage, h]

/-- Witness for C5, applying it to a pending map, an errored map and a loaded
map. -/
theorem c5_render_witness :
    pendingRender initialImageLoading "p" = true ∧
    errorRender (handleImageError "p" initialImageLoading) "p" = true ∧
    showsImage (handleImageLoad "p" initialImageLoading) "p" = true := by
  refine ⟨((c5_render_from_status initialImageLoading "p").2.1 (by decide)).1,
    ((c5_render_from_status (handleImageError "p" initialImageLoading) "p").2.2.1
      (by decide)).1,
    ((c5_render_from_status (handleImageLoad "p" initialImageLoading) "p").2.2.2
      (by decide)).2⟩

/-! ## C9 — frame property of the handlers -/

/-- C9: handling a load or error signal for id X leaves every entry for an id
other than X unchanged, and never removes an entry: a present entry stays
present through any one handler and through any sequence of image events. -/
theorem c9_frame (m : ImageLoadingState) (productId k : String) (es : List ImgEvent) :
    (k ≠ productId → handleImageLoad productId m k = m k ∧
      handleImageError productId m k = m k) ∧
    ((m k).isSome = true → (handleImageLoad productId m k).isSome = true ∧
      (handleImageError productId m k).isSome = true) ∧
    ((m k).isSome = true → (runImgEvents es m k).isSome = true) := by
  refine ⟨fun h => ?_, fun h => ?_, fun h => runImgEvents_isSome es m k h⟩
  · rw [handleImageLoad, handleImageError]
    simp [h]
  · rw [handleImageLoad, handleImageError]
    by_cases hk : k = productId <;> simp [hk, h]

/-- Witness for C9: the entry for "a" survives a load signal for "b", an error
signal for "b", and an event sequence touching only "b". -/
theorem c9_frame_witness :
    (handleImageLoad "b" (handleImageLoad "a" initialImageLoading) "a" =
        handleImageLoad "a" initialImageLoading "a" ∧
      handleImageError "b" (handleImageLoad "a" initialImageLoading) "a" =
        handleImageLoad "a" initialImageLoading "a") ∧
    ((handleImageLoad "b" (handleImageLoad "a" initialImageLoading) "a").isSome = true ∧
      (handleImageError "b" (handleImageLoad "a" initialImageLoading) "a").isSome = true) ∧
    (runImgEvents [ImgEvent.fail "b"]
      (handleImageLoad "a" initialImageLoading) "a").isSome = true := by
  have h := c9_frame (handleImageLoad "a" initialImageLoading) "b" "a" [ImgEvent.fail "b"]
  exact ⟨h.1 (by decide), h.2.1 (by decide), h.2.2 (by decide)⟩

/-! ## C10 — the value `true` is never stored -/

theorem runImgEvents_no_true (es : List ImgEvent) :
    ∀ (m : ImageLoadingState), (∀ k, m k ≠ some (ImgVal.bool true)) →
      ∀ k, runImgEvents es m k ≠ some (ImgVal.bool true) := by
  induction es with
  | nil => intro m h k; exact h k
  | cons e es ih =>
      intro m h k
      refine ih (applyImgEvent e m) ?_ k
      intro k'
      cases e with
      | load productId =>
          rw [applyImgEvent, handleImageLoad]
          by_cases hk : k' = productId <;> simp [hk, h k']
      | fail productId =>
          rw [applyImgEvent, handleImageError]
          by_cases hk : k' = productId <;> simp [hk, h k']

/-- C10: starting from the empty map, no sequence of image events ever stores
the boolean `true` (which the value type admits): every entry present after the
run is `false` (loaded) or `"error"`, so pending is represented only by an
absent entry. -/
theorem c10_never_true (es : List ImgEvent) (k : String) (v : ImgVal)
    (h : runImgEvents es initialImageLoading k = some v) :
    v = ImgVal.bool false ∨ v = ImgVal.strError := by
  have hne := runImgEvents_no_true es initialImageLoading (fun _ => by
    rw [initialImageLoading]; intro hc; cases hc) k
  cases v with
  | bool b =>
      cases b with
      | false => exact Or.inl rfl
      | true => exact absurd h hne
  | strError => exact Or.inr rfl

/-- Witness for C10: one load event for "a" stores `false` at "a". -/
theorem c10_never_true_witness :
    ImgVal.bool false = ImgVal.bool false ∨ ImgVal.bool false = ImgVal.strError :=
  c10_never_true [ImgEvent.load "a"] "a" (ImgVal.bool false) (by decide)

/-! ## C2 — debounce convergence -/

/-- The last keystroke of a nonempty burst, given as head plus tail. -/
def lastEv : (Nat × String) → List (Nat × String) → (Nat × String)
  | a, [] => a
  | _, b :: r => lastEv b r

theorem runKeys_burst (rest : List (Nat × String)) :
    ∀ (t : Nat) (q d : String) (e : Nat),
      gapsUnder300 ((t, q) :: rest) = true →
      runKeys rest
          { raw := q, debounced := d, timer := some (t + 300, q), emissions := e } =
        { raw := (lastEv (t, q) rest).2, debounced := d,
          timer := some ((lastEv (t, q) rest).1 + 300, (lastEv (t, q) rest).2),
          emissions := e } := by
  induction rest with
  | nil => intro t q d e _; rfl
  | cons b rest ih =>
      intro t q d e hg
      rcases b with ⟨t', q'⟩
      rw [gapsUnder300, Bool.and_eq_true, decide_eq_true_eq] at hg
      have hne : ¬ (t + 300 ≤ t') := by omega
      have hstep : keystroke t' q'
          { raw := q, debounced := d, timer := some (t + 300, q), emissions := e } =
          { raw := q', debounced := d, timer := some (t' + 300, q'), emissions := e } := by
        rw [keystroke, fireIfDue]
        simp [hne]
      show runKeys rest (keystroke t' q' _) = _
      rw [hstep, lastEv]
      exact ih t' q' d e hg.2

/-- C2: starting from any state with no pending timer, run a nonempty burst of
keystrokes whose consecutive gaps are all under 300ms, then let at least 300ms
pass after the last one. During the burst the debounced value never changes and
`setDebouncedSearchKey` never fires; at the end of the quiet period it fires
exactly once and the debounced value equals the last raw value typed. -/
theorem c2_debounce_converges (s0 : DebounceState) (ev : Nat × String)
    (evs : List (Nat × String)) (T : Nat)
    (h0 : s0.timer = none)
    (hg : gapsUnder300 (ev :: evs) = true)
    (hT : (lastEv ev evs).1 + 300 ≤ T) :
    (runKeys (ev :: evs) s0).debounced = s0.debounced ∧
    (runKeys (ev :: evs) s0).emissions = s0.emissions ∧
    (fireIfDue T (runKeys (ev :: evs) s0)).debounced = (lastEv ev evs).2 ∧
    (fireIfDue T (runKeys (ev :: evs) s0)).raw = (lastEv ev evs).2 ∧
    (fireIfDue T (runKeys (ev :: evs) s0)).emissions = s0.emissions + 1 := by
  rcases ev with ⟨t, q⟩
  have hfirst : keystroke t q s0 =
      { raw := q, debounced := s0.debounced, timer := some (t + 300, q),
        emissions := s0.emissions } := by
    rw [keystroke, fireIfDue, h0]
  have hrun : runKeys ((t, q) :: evs) s0 =
      { raw := (lastEv (t, q) evs).2, debounced := s0.debounced,
        timer := some ((lastEv (t, q) evs).1 + 300, (lastEv (t, q) evs).2),
        emissions := s0.emissions } := by
    show runKeys evs (keystroke t q s0) = _
    rw [hfirst]
    exact runKeys_burst evs t q s0.debounced s0.emissions hg
  rw [hrun, fireIfDue]
  simp [hT]

/-- Witness for C2: typing "r", "re", "red" at 0ms, 100ms, 200ms and settling
at 500ms yields one emission with debounced value "red", with nothing emitted
during the burst. -/
theorem c2_debounce_witness :
    (runKeys [(0, "r"), (100, "re"), (200, "red")]
      { raw := "", debounced := "", timer := none, emissions := 0 }).debounced = "" ∧
    (runKeys [(0, "r"), (100, "re"), (200, "red")]
      { raw := "", debounced := "", timer := none, emissions := 0 }).emissions = 0 ∧
    (fireIfDue 500 (runKeys [(0, "r"), (100, "re"), (200, "red")]
      { raw := "", debounced := "", timer := none, emissions := 0 })).debounced = "red" ∧
    (fireIfDue 500 (runKeys [(0, "r"), (100, "re"), (200, "red")]
      { raw := "", debounced := "", timer := none, emissions := 0 })).raw = "red" ∧
    (fireIfDue 500 (runKeys [(0, "r"), (100, "re"), (200, "red")]
      { raw := "", debounced := "", timer := none, emissions := 0 })).emissions = 1 :=
  c2_debounce_converges { raw := "", debounced := "", timer := none, emissions := 0 }
    (0, "r") [(100, "re"), (200, "red")] 500 rfl (by decide) (by decide)

/-! ## C6 — the debounced value was once the raw value -/

theorem fireIfDue_mem (t : Nat) (s : DebounceState) (H : List String)
    (hd : s.debounced ∈ H) (ht : ∀ d v, s.timer = some (d, v) → v ∈ H) :
    (fireIfDue t s).debounced ∈ H ∧
      (∀ d v, (fireIfDue t s).timer = some (d, v) → v ∈ H) := by
  rw [fireIfDue]
  rcases hs : s.timer with _ | ⟨d, v⟩
  · exact ⟨hd, fun d' v' hv' => ht d' v' (hs ▸ hv')⟩
  · by_cases hle : d ≤ t
    · simp only [hle, if_true]
      exact ⟨ht d v hs, by intro d' v' hv'; simp at hv'⟩
    · simp only [hle, if_false]
      exact ⟨hd, fun d' v' hv' => ht d' v' (hs ▸ hv')⟩

theorem drun_mem (es : List DEvent) :
    ∀ (s : DebounceState) (H : List String),
      s.debounced ∈ H → (∀ d v, s.timer = some (d, v) → v ∈ H) →
      (drun es s).debounced ∈ H ++ typedValues es ∧
        (∀ d v, (drun es s).timer = some (d, v) → v ∈ H ++ typedValues es) := by
  induction es with
  | nil =>
      intro s H hd ht
      rw [typedValues]
      simp only [List.filterMap_nil, List.append_nil]
      exact ⟨hd, ht⟩
  | cons e es ih =>
      intro s H hd ht
      cases e with
      | key t q =>
          have hstep : dstep (DEvent.key t q) s = keystroke t q s := rfl
          have hfire := fireIfDue_mem t s H hd ht
          have hd' : (keystroke t q s).debounced ∈ H ++ [q] := by
            rw [keystroke]
            exact List.mem_append_left _ hfire.1
          have ht' : ∀ d v, (keystroke t q s).timer = some (d, v) → v ∈ H ++ [q] := by
            intro d v hv
            rw [keystroke] at hv
            simp only [Option.some.injEq, Prod.mk.injEq] at hv
            rw [← hv.2]
            simp
          have h := ih (keystroke t q s) (H ++ [q]) hd' ht'
          have htv : typedValues (DEvent.key t q :: es) = q :: typedValues es := rfl
          rw [drun, List.foldl_cons, hstep] at *
          rw [htv]
          constructor
          · have := h.1
            simpa [List.append_assoc] using this
          · intro d v hv
            have := h.2 d v hv
            simpa [List.append_assoc] using this
      | tick t =>
          have hfire := fireIfDue_mem t s H hd ht
          have h := ih (fireIfDue t s) H hfire.1 hfire.2
          have htv : typedValues (DEvent.tick t :: es) = typedValues es := rfl
          rw [drun, List.foldl_cons] at *
          rw [htv]
          exact h

/-- C6: at every state reachable from the mount state by keystrokes and timer
fires, the debounced query equals some past value of the raw query: the initial
empty string or one of the values typed. -/
theorem c6_debounced_was_typed (es : List DEvent) :
    (drun es initialDebounce).debounced ∈ "" :: typedValues es := by
  have h := drun_mem es initialDebounce [""]
    (by rw [initialDebounce]; simp)
    (by
      intro d v hv
      rw [initialDebounce] at hv
      simp only [Option.some.injEq, Prod.mk.injEq] at hv
      rw [← hv.2]
      simp)
  simpa using h.1

/-! ## C7 — teardown and rescheduling cancel the pending emission -/

theorem drun_ticks_teardown (ts : List Nat) :
    ∀ (s : DebounceState), s.timer = none → drun (ts.map DEvent.tick) s = s := by
  induction ts with
  | nil => intro s _; rfl
  | cons t ts ih =>
      intro s hs
      have hstep : dstep (DEvent.tick t) s = s := by
        rw [dstep, fireIfDue, hs]
      show drun (ts.map DEvent.tick) (dstep (DEvent.tick t) s) = s
      rw [hstep]
      exact ih s hs

/-- C7: teardown runs the effect cleanup, so no timer is pending afterwards and
the debounced value never changes however much time passes; and on the
re-scheduling path a keystroke cancels the not-yet-due pending timer, so its
captured emission never happens: only the freshly scheduled timer remains and
the debounced value is untouched at the keystroke. -/
theorem c7_teardown_cancels (s : DebounceState) (ts : List Nat) (t : Nat) (q : String) :
    (teardown s).timer = none ∧
    (teardown s).debounced = s.debounced ∧
    drun (ts.map DEvent.tick) (teardown s) = teardown s ∧
    (∀ d v, s.timer = some (d, v) → t < d →
      (keystroke t q s).timer = some (t + 300, q) ∧
      (keystroke t q s).debounced = s.debounced ∧
      (keystroke t q s).emissions = s.emissions) := by
  refine ⟨rfl, rfl, drun_ticks_teardown ts (teardown s) rfl, ?_⟩
  intro d v hv hlt
  have hne : ¬ (d ≤ t) := by omega
  rw [keystroke, fireIfDue, hv]
  simp [hne]

/-- Witness for C7 at a concrete state carrying a pending timer due at 400,
with ticks at 1000 and 2000 after teardown and a keystroke at 200. -/
theorem c7_teardown_witness :
    (teardown sampleDebounceState).timer = none ∧
    (teardown sampleDebounceState).debounced = "b" ∧
    drun ([1000, 2000].map DEvent.tick) (teardown sampleDebounceState) =
      teardown sampleDebounceState ∧
    (keystroke 200 "d" sampleDebounceState).timer = some (500, "d") ∧
    (keystroke 200 "d" sampleDebounceState).debounced = "b" := by
  have h := c7_teardown_cancels sampleDebounceState [1000, 2000] 200 "d"
  exact ⟨h.1, h.2.1, h.2.2.1, (h.2.2.2 400 "c" rfl (by decide)).1,
    (h.2.2.2 400 "c" rfl (by decide)).2.1⟩

/-! ## C8 — fetch failure leaves the product list empty -/

/-- C8: if the fetch outcome is a thrown error or a non-2xx response, the
`catch` block logs exactly one error and the product list is unchanged; in
particular from the initial state it stays empty. -/
theorem c8_fetch_failure (o : FetchOutcome) (s : FetchState)
    (h : o = FetchOutcome.thrown ∨
      ∃ r, o = FetchOutcome.response r ∧ responseOk r = false) :
    (runFetch o s).products = s.products ∧
    (runFetch o s).loggedErrors = s.loggedErrors + 1 ∧
    (runFetch o initialFetchState).products = [] ∧
    (runFetch o initialFetchState).loggedErrors = 1 := by
  rcases h with h | ⟨r, h, hr⟩ <;> subst h
  · exact ⟨rfl, rfl, rfl, rfl⟩
  · simp [runFetch, hr, initialFetchState]

/-- Witness for C8: a 500 response with a nonempty body leaves a nonempty
pre-existing product list untouched and the initial list empty. -/
theorem c8_fetch_witness :
    (runFetch failedResponse sampleFetchState).products = [blueHat] ∧
    (runFetch failedResponse sampleFetchState).loggedErrors = 1 ∧
    (runFetch failedResponse initialFetchState).products = [] ∧
    (runFetch failedResponse initialFetchState).loggedErrors = 1 := by
  have h := c8_fetch_failure failedResponse sampleFetchState
    (Or.inr ⟨⟨500, [redShoe]⟩, rfl, by decide⟩)
  exact h

end ProductListApp
